import Mathlib

/-!
Verification of the Garment Costing PWA core (src/app.js, src/db.js).

Embedding conventions:
* JavaScript numbers are embedded as `ℚ`; the spec states the numeric
  relationships exactly ("37.8 (exact)"), and the deterministic cost
  pipeline only uses field operations plus `Math.round`, so the rational
  embedding is the faithful model of the intended arithmetic.
* A wizard field holds a string-or-number value; blank (`''`, `null`,
  `undefined`) is distinguished from zero, and a non-numeric string
  (whose JS `Number` is `NaN`) is a third case (`FieldVal.nan`).
* `Option` models JS `null`/`undefined` results.
-/

/-- A value stored in a wizard draft field: blank (`''`/`null`/`undefined`),
a finite number, or a value whose JS `Number(...)` coercion is `NaN`. -/
inductive FieldVal where
  | blank : FieldVal
  | num : ℚ → FieldVal
  | nan : FieldVal
deriving DecidableEq, Repr

/-- JS `Number(v)` coercion on a field value; `none` models `NaN`
(`Number('') = 0`, `Number(null) = 0`). -/
def jsNumber : FieldVal → Option ℚ
  | .blank => some 0
  | .num q => some q
  | .nan => none

/-- `toNum` from app.js: blank maps to 0, a finite number to itself, and a
non-finite coercion to 0. -/
def toNum : FieldVal → ℚ
  | .blank => 0
  | .num q => q
  | .nan => 0

/-- `Number.EPSILON` = 2⁻⁵², added by `round2` before rounding. -/
def epsilonJS : ℚ := 1 / 2 ^ 52

/-- JS `Math.round`: nearest integer, ties toward +∞, i.e. `⌊x + 1/2⌋`. -/
def jsRound (q : ℚ) : ℤ := ⌊q + 1 / 2⌋

/-- `round2` from app.js: `Math.round((x + Number.EPSILON) * 100) / 100`
(the non-finite guard returning 0 cannot fire on `ℚ`). -/
def round2 (q : ℚ) : ℚ := (jsRound ((q + epsilonJS) * 100) : ℚ) / 100

/-- JS `Math.trunc` on a rational: round toward zero. -/
def jsTrunc (q : ℚ) : ℤ := if 0 ≤ q then ⌊q⌋ else ⌈q⌉

/-- `APP_VERSION` constant from app.js. -/
def APP_VERSION : String := "2.0.0"

/-- `CALC_VERSION` constant from app.js. -/
def CALC_VERSION : String := "factorySheet_v1"

/-- `DEFAULT_CURRENCY` constant from app.js. -/
def DEFAULT_CURRENCY : String := "$"

/-- `FIXED_ROC_PCT` constant from app.js (the locked factory markup). -/
def FIXED_ROC_PCT : ℚ := 2.5

/-- `WEIGHT_GM_PER_LB` constant from app.js. -/
def WEIGHT_GM_PER_LB : ℚ := 453.6

/-- `PIECES_PER_DOZEN` constant from app.js. -/
def PIECES_PER_DOZEN : ℚ := 12

/-- `GM_PER_LB_PER_PIECE_IN_DOZEN = 453.6 / 12` (= 37.8) from app.js. -/
def GM_PER_LB_PER_PIECE_IN_DOZEN : ℚ := WEIGHT_GM_PER_LB / PIECES_PER_DOZEN

/-- `GAUGE_OPTIONS` from app.js. -/
def GAUGE_OPTIONS : List ℚ := [3, 5, 7, 12]

/-- A whitespace character as stripped by JS `String.prototype.trim`
(space, tab, line feed, carriage return; the exotic Unicode space classes
do not occur in this development). -/
def wsChar (c : Char) : Bool :=
  c = ' ' || c = '\t' || c = '\n' || c = '\r'

/-- JS `String(x).trim()`: strip leading and trailing whitespace. -/
def jsTrim (s : String) : String :=
  String.mk (((s.data.dropWhile (fun c => wsChar c)).reverse.dropWhile
    (fun c => wsChar c)).reverse)

/-- The compressed-image payload attached to a draft or record: raw bytes
plus the blob MIME type (`canvas.toBlob` output). -/
structure JSBlob where
  bytes : List ℕ
  type : String
deriving DecidableEq, Repr

/-- The `photo` object held in a wizard draft
(`{ blob, width, height, type }` produced by `compressImage`, or copied
from a record by `duplicateProduct`). -/
structure DraftPhoto where
  blob : Option JSBlob
  width : Option ℚ
  height : Option ℚ
  type : String
deriving DecidableEq, Repr

/-- The wizard draft state (`wizardState` in app.js): style attributes,
currency, optional photo, and the numeric cost-input fields. -/
structure DraftState where
  styleName : String
  yarnDesc : String
  composition : String
  gauge : Option ℚ
  weightGm : FieldVal
  photo : Option DraftPhoto
  currency : String
  yarnPricePerLb : FieldVal
  wastagePct : FieldVal
  accessoriesCostDoz : FieldVal
  fabricDoz : FieldVal
  fabricCostDoz : FieldVal
  fabricAttachCostDoz : FieldVal
  timingMin : FieldVal
  cmDoz : FieldVal
  rocPct : FieldVal
deriving DecidableEq, Repr

/-- The derived cost figures returned by `computeAll`. -/
structure Snapshot where
  lbsPerDoz : Option ℚ
  lbsWithWastage : Option ℚ
  yarnCostDoz : Option ℚ
  totalDoz : ℚ
  fobPerPc : ℚ
  finalPerPc : ℚ
  rocPct : ℚ
deriving DecidableEq, Repr

/-- `computeAll` from app.js: the factory-sheet cost pipeline. -/
def computeAll (s : DraftState) : Snapshot :=
  let weightGm := toNum s.weightGm
  let wastagePct := toNum s.wastagePct
  let yarnPricePerLb := toNum s.yarnPricePerLb
  let lbsPerDoz : Option ℚ :=
    if 0 < weightGm then some (weightGm / GM_PER_LB_PER_PIECE_IN_DOZEN) else none
  let lbsWithWastage : Option ℚ :=
    match lbsPerDoz with
    | some x => some (x * (1 + wastagePct / 100))
    | none => none
  let yarnCostDoz : Option ℚ :=
    match lbsWithWastage with
    | some x => some (yarnPricePerLb * x)
    | none => none
  let accessoriesCostDoz := toNum s.accessoriesCostDoz
  let fabricDoz := toNum s.fabricDoz
  let fabricCostDoz := toNum s.fabricCostDoz
  let fabricAttachCostDoz := toNum s.fabricAttachCostDoz
  let cmDoz := toNum s.cmDoz
  let totalDoz := yarnCostDoz.getD 0 + accessoriesCostDoz + fabricDoz +
    fabricCostDoz + fabricAttachCostDoz + cmDoz
  let fobPerPc := round2 (totalDoz / PIECES_PER_DOZEN)
  let rocPct := FIXED_ROC_PCT
  let finalPerPc := round2 (fobPerPc * (1 + rocPct / 100))
  { lbsPerDoz := lbsPerDoz
    lbsWithWastage := lbsWithWastage
    yarnCostDoz := yarnCostDoz
    totalDoz := totalDoz
    fobPerPc := fobPerPc
    finalPerPc := finalPerPc
    rocPct := rocPct }

/-- `defaultWizardState` from app.js. -/
def defaultWizardState : DraftState where
  styleName := ""
  yarnDesc := ""
  composition := ""
  gauge := none
  weightGm := .blank
  photo := none
  currency := DEFAULT_CURRENCY
  yarnPricePerLb := .blank
  wastagePct := .num 8
  accessoriesCostDoz := .num 0
  fabricDoz := .num 0
  fabricCostDoz := .num 0
  fabricAttachCostDoz := .num 0
  timingMin := .num 0
  cmDoz := .num 0
  rocPct := .num FIXED_ROC_PCT

/-- A draft differing from the default only in the Scenario A inputs:
weight 378 g, wastage 5 %, yarn price 2 / lb, accessories 3, fabric 0,
fabric cost 0, fabric attachment 0, CM 6 / dozen. -/
def scenarioADraft : DraftState :=
  { defaultWizardState with
    weightGm := .num 378
    wastagePct := .num 5
    yarnPricePerLb := .num 2
    accessoriesCostDoz := .num 3
    fabricDoz := .num 0
    fabricCostDoz := .num 0
    fabricAttachCostDoz := .num 0
    cmDoz := .num 6 }

/-- An all-blank draft used to exercise the null branch of the pipeline. -/
def blankWeightDraft : DraftState :=
  { defaultWizardState with weightGm := .blank }

/-- C1: for every input record, `computeAll` returns pounds-per-dozen equal
to weight-per-piece divided by 37.8 exactly when the numeric value of
weight-per-piece is strictly positive; when it is ≤ 0 (blank coerces to 0)
the three nullable outputs are all `none`, and total-per-dozen is the sum
of the five dozen-rate inputs with the yarn contribution taken as 0
(total-per-dozen itself is never null, being of type `ℚ`). -/
theorem computeAll_null_policy (s : DraftState) :
    GM_PER_LB_PER_PIECE_IN_DOZEN = 378 / 10 ∧
    (computeAll s).lbsPerDoz =
      (if 0 < toNum s.weightGm
        then some (toNum s.weightGm / GM_PER_LB_PER_PIECE_IN_DOZEN) else none) ∧
    (¬ 0 < toNum s.weightGm →
      (computeAll s).lbsPerDoz = none ∧
      (computeAll s).lbsWithWastage = none ∧
      (computeAll s).yarnCostDoz = none ∧
      (computeAll s).totalDoz =
        toNum s.accessoriesCostDoz + toNum s.fabricDoz + toNum s.fabricCostDoz +
          toNum s.fabricAttachCostDoz + toNum s.cmDoz) := by
  refine ⟨by norm_num [GM_PER_LB_PER_PIECE_IN_DOZEN, WEIGHT_GM_PER_LB, PIECES_PER_DOZEN],
    ?_, fun h => ⟨?_, ?_, ?_, ?_⟩⟩
  · simp only [computeAll]
  · simp only [computeAll, if_neg h]
  · simp only [computeAll, if_neg h]
  · simp only [computeAll, if_neg h]
  · simp only [computeAll, if_neg h, Option.getD_none]
    ring

/-- Witness for C1 at the blank-weight draft: the ≤ 0 branch is exercised
on a concrete input. -/
theorem computeAll_null_policy_witness :
    (computeAll blankWeightDraft).lbsPerDoz = none ∧
    (computeAll blankWeightDraft).lbsWithWastage = none ∧
    (computeAll blankWeightDraft).yarnCostDoz = none ∧
    (computeAll blankWeightDraft).totalDoz =
      toNum blankWeightDraft.accessoriesCostDoz + toNum blankWeightDraft.fabricDoz +
        toNum blankWeightDraft.fabricCostDoz + toNum blankWeightDraft.fabricAttachCostDoz +
        toNum blankWeightDraft.cmDoz :=
  (computeAll_null_policy blankWeightDraft).2.2 (by decide)

/-- Helper: evaluate `round2 q` once the enclosing integer is known. -/
theorem round2_eval (q : ℚ) (z : ℤ) (h1 : (z : ℚ) ≤ (q + epsilonJS) * 100 + 1 / 2)
    (h2 : (q + epsilonJS) * 100 + 1 / 2 < z + 1) : round2 q = (z : ℚ) / 100 := by
  unfold round2 jsRound
  rw [show ⌊(q + epsilonJS) * 100 + 1 / 2⌋ = z from Int.floor_eq_iff.mpr ⟨h1, h2⟩]

/-- C2: Scenario A. With weight 378 g, wastage 5 %, yarn price 2 / lb,
accessories 3, fabric 0, fabric cost 0, fabric attachment 0 and CM 6 per
dozen, `computeAll` returns pounds-per-dozen 10, pounds-with-wastage 10.5,
yarn cost 21, total 30 per dozen, FOB 2.50 per piece and final 2.56 per
piece (2.5 × 1.025 = 2.5625 rounds to 2.56). -/
theorem computeAll_scenarioA :
    (computeAll scenarioADraft).lbsPerDoz = some 10 ∧
    (computeAll scenarioADraft).lbsWithWastage = some (21 / 2) ∧
    (computeAll scenarioADraft).yarnCostDoz = some 21 ∧
    (computeAll scenarioADraft).totalDoz = 30 ∧
    (computeAll scenarioADraft).fobPerPc = 5 / 2 ∧
    (computeAll scenarioADraft).finalPerPc = 64 / 25 := by
  have hfob : (computeAll scenarioADraft).fobPerPc = 5 / 2 := by
    simp only [computeAll, scenarioADraft, defaultWizardState, toNum]
    refine Eq.trans (round2_eval _ 250 ?_ ?_) (by norm_num) <;>
      norm_num [epsilonJS, GM_PER_LB_PER_PIECE_IN_DOZEN, WEIGHT_GM_PER_LB, PIECES_PER_DOZEN]
  have hfinal : (computeAll scenarioADraft).finalPerPc =
      round2 ((computeAll scenarioADraft).fobPerPc * (1 + FIXED_ROC_PCT / 100)) := rfl
  rw [hfob] at hfinal
  refine ⟨?_, ?_, ?_, ?_, hfob, ?_⟩
  · simp only [computeAll, scenarioADraft, defaultWizardState, toNum]
    norm_num [GM_PER_LB_PER_PIECE_IN_DOZEN, WEIGHT_GM_PER_LB, PIECES_PER_DOZEN]
  · simp only [computeAll, scenarioADraft, defaultWizardState, toNum]
    norm_num [GM_PER_LB_PER_PIECE_IN_DOZEN, WEIGHT_GM_PER_LB, PIECES_PER_DOZEN]
  · simp only [computeAll, scenarioADraft, defaultWizardState, toNum]
    norm_num [GM_PER_LB_PER_PIECE_IN_DOZEN, WEIGHT_GM_PER_LB, PIECES_PER_DOZEN]
  · simp only [computeAll, scenarioADraft, defaultWizardState, toNum]
    norm_num [GM_PER_LB_PER_PIECE_IN_DOZEN, WEIGHT_GM_PER_LB, PIECES_PER_DOZEN]
  · rw [hfinal]
    refine Eq.trans (round2_eval _ 256 ?_ ?_) (by norm_num) <;>
      norm_num [epsilonJS, FIXED_ROC_PCT]

/-- C3: `computeAll` ignores the draft's stored `rocPct` field entirely:
two drafts differing only in `rocPct` yield the same snapshot, the
reported markup is always the process-wide constant 2.5, and
final-per-piece is always `round2 (fobPerPc * 1.025)`. -/
theorem computeAll_fixed_markup (s : DraftState) (v : FieldVal) :
    computeAll { s with rocPct := v } = computeAll s ∧
    (computeAll s).rocPct = FIXED_ROC_PCT ∧
    FIXED_ROC_PCT = 5 / 2 ∧
    (computeAll s).finalPerPc =
      round2 ((computeAll s).fobPerPc * (1 + FIXED_ROC_PCT / 100)) := by
  refine ⟨rfl, rfl, by norm_num [FIXED_ROC_PCT], rfl⟩

/-- C7: `round2` is idempotent on every (finite) number. -/
theorem round2_idempotent (q : ℚ) : round2 (round2 q) = round2 q := by
  unfold round2 jsRound
  have h1 : (((⌊(q + epsilonJS) * 100 + 1 / 2⌋ : ℤ) : ℚ) / 100 + epsilonJS) * 100 + 1 / 2 =
      ((⌊(q + epsilonJS) * 100 + 1 / 2⌋ : ℤ) : ℚ) + (epsilonJS * 100 + 1 / 2) := by
    ring
  rw [h1, Int.floor_int_add]
  have h2 : ⌊epsilonJS * 100 + 1 / 2⌋ = 0 := by
    rw [Int.floor_eq_zero_iff]
    constructor
    · norm_num [epsilonJS]
    · norm_num [epsilonJS]
  rw [h2, add_zero]

/-- The step kinds appearing in `STEPS` (`style`, `number`, `moneyDoz`,
`int`, `percent`, `computed`, `preview`). -/
inductive StepKind where
  | style
  | number
  | moneyDoz
  | int
  | percent
  | computed
  | preview
deriving DecidableEq, Repr

/-- The numeric draft fields addressed by a step's `key` string. -/
inductive FieldKey where
  | yarnPricePerLb
  | weightGm
  | wastagePct
  | accessoriesCostDoz
  | fabricDoz
  | fabricCostDoz
  | fabricAttachCostDoz
  | timingMin
  | cmDoz
deriving DecidableEq, Repr

/-- Dynamic field access `s[step.key]` on a wizard draft. -/
def DraftState.get (s : DraftState) : FieldKey → FieldVal
  | .yarnPricePerLb => s.yarnPricePerLb
  | .weightGm => s.weightGm
  | .wastagePct => s.wastagePct
  | .accessoriesCostDoz => s.accessoriesCostDoz
  | .fabricDoz => s.fabricDoz
  | .fabricCostDoz => s.fabricCostDoz
  | .fabricAttachCostDoz => s.fabricAttachCostDoz
  | .timingMin => s.timingMin
  | .cmDoz => s.cmDoz

/-- A step descriptor from the `STEPS` array of app.js. -/
structure Step where
  id : String
  kind : StepKind
  key : Option FieldKey := none
  required : Bool := false
  title : String
deriving DecidableEq, Repr

/-- The `STEPS` wizard schema from app.js, in source order (hint strings,
which no claim inspects, are omitted). -/
def STEPS : List Step :=
  [ { id := "styleInfo", kind := .style, title := "STEP 1: Basic Style Information" },
    { id := "yarnPricePerLb", kind := .number, key := some .yarnPricePerLb,
      required := true, title := "Yarn price / LBS" },
    { id := "weightGm", kind := .number, key := some .weightGm,
      required := true, title := "Garments Weight (grams)" },
    { id := "lbsPerDoz", kind := .computed, title := "Garments Weight (LBS / Doz)" },
    { id := "wastagePct", kind := .percent, key := some .wastagePct,
      required := true, title := "Wastage %" },
    { id := "lbsWithWastage", kind := .computed,
      title := "Garments Weight LBS (Including Wastage @ %)" },
    { id := "yarnCostDoz", kind := .computed, title := "Yarn Cost" },
    { id := "accessoriesCostDoz", kind := .moneyDoz, key := some .accessoriesCostDoz,
      title := "Accessories Cost" },
    { id := "fabricDoz", kind := .moneyDoz, key := some .fabricDoz, title := "Fabric" },
    { id := "fabricCostDoz", kind := .moneyDoz, key := some .fabricCostDoz,
      title := "Fabric Cost" },
    { id := "fabricAttachCostDoz", kind := .moneyDoz, key := some .fabricAttachCostDoz,
      title := "Fabric Attachment CM" },
    { id := "timingMin", kind := .int, key := some .timingMin, title := "Timing" },
    { id := "cmDoz", kind := .moneyDoz, key := some .cmDoz, required := true,
      title := "CM" },
    { id := "fobPerPc", kind := .computed, title := "Costing price / FOB" },
    { id := "rocPct", kind := .computed, title := "Final (ROC 2.50%)" },
    { id := "preview", kind := .preview, title := "Preview & Calculate Final FOB" } ]

/-- `isPercentValid` from app.js: finite and within the closed range
[0, 100]. -/
def isPercentValid (v : FieldVal) : Bool :=
  match jsNumber v with
  | some q => decide (0 ≤ q ∧ q ≤ 100)
  | none => false

/-- `isNonNegativeNumber` from app.js: finite and ≥ 0. -/
def isNonNegativeNumber (v : FieldVal) : Bool :=
  match jsNumber v with
  | some q => decide (0 ≤ q)
  | none => false

/-- `Number.isInteger(Number(v))` as used for `int` steps. -/
def jsIsInteger (v : FieldVal) : Bool :=
  match jsNumber v with
  | some q => decide (q.den = 1)
  | none => false

/-- Result of `validateStep`: `{ ok, message? }`. -/
structure VResult where
  ok : Bool
  message : Option String := none
deriving DecidableEq, Repr

/-- JS `GAUGE_OPTIONS.includes(Number(s.gauge))` (`Number(null) = 0`). -/
def gaugeIncluded (g : Option ℚ) : Bool :=
  decide (g.getD 0 ∈ GAUGE_OPTIONS)

/-- `validateStep` from app.js: per-step validation of the current draft. -/
def validateStep (step : Step) (s : DraftState) : VResult :=
  if step.kind = .style then
    if jsTrim s.styleName = "" then
      { ok := false, message := some "Style Name is required." }
    else if jsTrim s.yarnDesc = "" then
      { ok := false, message := some "Yarn Description is required." }
    else if (s.photo.bind (fun p => p.blob)).isNone then
      { ok := false, message := some "Product Photo is required." }
    else if ¬ gaugeIncluded s.gauge then
      { ok := false, message := some "Please select a Gauge." }
    else if ¬ 0 < toNum s.weightGm then
      { ok := false, message := some "Garment Weight (grams) must be greater than 0." }
    else { ok := true }
  else if step.kind = .number ∨ step.kind = .moneyDoz ∨ step.kind = .int then
    let v := (step.key.map s.get).getD .blank
    if step.required ∧ v = .blank then
      { ok := false, message := some (step.title ++ " is required.") }
    else if v = .blank then { ok := true }
    else if ¬ isNonNegativeNumber v then
      { ok := false, message := some (step.title ++ " must be a non-negative number.") }
    else if step.kind = .int ∧ ¬ jsIsInteger v then
      { ok := false, message := some (step.title ++ " must be a whole number.") }
    else { ok := true }
  else if step.kind = .percent then
    let v := (step.key.map s.get).getD .blank
    if step.required ∧ v = .blank then
      { ok := false, message := some (step.title ++ " is required.") }
    else if v = .blank then { ok := true }
    else if ¬ isPercentValid v then
      { ok := false, message := some (step.title ++ " must be between 0 and 100.") }
    else { ok := true }
  else { ok := true }

/-- The `wastagePct` percent step of the schema (index 4 of `STEPS`). -/
def wastageStep : Step :=
  { id := "wastagePct", kind := .percent, key := some .wastagePct,
    required := true, title := "Wastage %" }

/-- C4: on any percent-kind step, the validation engine accepts a present
numeric value exactly when it lies in the closed range [0, 100]; hence
every present value above 100 or below 0 is rejected and the boundary
values 0 and 100 are accepted. -/
theorem validateStep_percent_range (step : Step) (s : DraftState) (k : FieldKey) (q : ℚ)
    (hkind : step.kind = .percent) (hkey : step.key = some k)
    (hval : s.get k = .num q) :
    (validateStep step s).ok = decide (0 ≤ q ∧ q ≤ 100) := by
  have hstyle : step.kind ≠ .style := by rw [hkind]; intro h; cases h
  have hnmi : ¬ (step.kind = .number ∨ step.kind = .moneyDoz ∨ step.kind = .int) := by
    rw [hkind]; rintro (h | h | h) <;> cases h
  have hv : (step.key.map s.get).getD FieldVal.blank = FieldVal.num q := by
    rw [hkey]
    simpa using hval
  simp only [validateStep, if_neg hstyle, if_neg hnmi, if_pos hkind, hv]
  have hblank : ¬ (FieldVal.num q = FieldVal.blank) := fun h => by cases h
  rw [if_neg (fun h => hblank h.2), if_neg hblank]
  by_cases h : isPercentValid (FieldVal.num q) = true
  · rw [if_neg (by simp [h])]
    simp only [isPercentValid, jsNumber] at h
    simpa using h.symm
  · rw [if_pos (by simpa using h)]
    simp only [isPercentValid, jsNumber] at h
    simp only [Bool.not_eq_true] at h
    simpa using h.symm

/-- A draft whose wastage has been set to the out-of-range value 150. -/
def wastage150Draft : DraftState :=
  { defaultWizardState with wastagePct := .num 150 }

/-- Witness for C4: the schema's wastage step rejects 150 (Scenario C) and
accepts the boundary value 100. -/
theorem validateStep_percent_range_witness :
    (validateStep wastageStep wastage150Draft).ok = false ∧
    (validateStep wastageStep { defaultWizardState with wastagePct := .num 100 }).ok = true := by
  constructor
  · have h := validateStep_percent_range wastageStep wastage150Draft .wastagePct 150
      rfl rfl rfl
    rw [h]; decide
  · have h := validateStep_percent_range wastageStep
      { defaultWizardState with wastagePct := .num 100 } .wastagePct 100 rfl rfl rfl
    rw [h]; decide

/-- JS `x || null` on an optional number: `0` (and absence) collapse to
`null`. -/
def jsOrNull (o : Option ℚ) : Option ℚ :=
  match o with
  | some x => if x = 0 then none else some x
  | none => none

/-- JS `x || d` on a string: the empty string (and absence) falls back to
the default. -/
def jsOrStr (o : Option String) (d : String) : String :=
  match o with
  | some x => if x = "" then d else x
  | none => d

/-- The photo object frozen into a record by `calculateAndSave`
(`{ blob, type, width, height }`). -/
structure Photo where
  blob : Option JSBlob
  type : String
  width : Option ℚ
  height : Option ℚ
deriving DecidableEq, Repr

/-- The frozen numeric inputs of a costing record. -/
structure ProductInputs where
  yarnPricePerLb : ℚ
  wastagePct : ℚ
  accessoriesCostDoz : ℚ
  fabricDoz : ℚ
  fabricCostDoz : ℚ
  fabricAttachCostDoz : ℚ
  timingMin : ℤ
  cmDoz : ℚ
  rocPct : ℚ
deriving DecidableEq, Repr

/-- The computed snapshot frozen into a record (`product.computed`). -/
structure StoredComputed where
  lbsPerDoz : Option ℚ
  lbsWithWastage : Option ℚ
  yarnCostDoz : Option ℚ
  totalDoz : ℚ
  fobPerPc : ℚ
  finalPerPc : ℚ
deriving DecidableEq, Repr

/-- A committed costing record (`product` built in `calculateAndSave`).
`photo` is optional because imported records may lack one. -/
structure Product where
  id : String
  createdAt : String
  updatedAt : String
  appVersion : String
  calcVersion : String
  styleName : String
  yarnDesc : String
  composition : String
  gauge : ℚ
  weightGm : ℚ
  currency : String
  photo : Option Photo
  inputs : ProductInputs
  computed : StoredComputed
deriving DecidableEq, Repr

/-- The record object literal built inside `calculateAndSave`, given the
fresh identity `newId` and timestamp `now`. -/
def buildProduct (w : DraftState) (c : Snapshot) (newId now : String) : Product where
  id := newId
  createdAt := now
  updatedAt := now
  appVersion := APP_VERSION
  calcVersion := CALC_VERSION
  styleName := jsTrim w.styleName
  yarnDesc := jsTrim w.yarnDesc
  composition := jsTrim w.composition
  gauge := w.gauge.getD 0
  weightGm := toNum w.weightGm
  currency := jsTrim (jsOrStr (some w.currency) DEFAULT_CURRENCY)
  photo := some
    { blob := w.photo.bind (fun p => p.blob)
      type := jsOrStr (w.photo.map (fun p => p.type)) "image/jpeg"
      width := jsOrNull (w.photo.bind (fun p => p.width))
      height := jsOrNull (w.photo.bind (fun p => p.height)) }
  inputs :=
    { yarnPricePerLb := toNum w.yarnPricePerLb
      wastagePct := toNum w.wastagePct
      accessoriesCostDoz := toNum w.accessoriesCostDoz
      fabricDoz := toNum w.fabricDoz
      fabricCostDoz := toNum w.fabricCostDoz
      fabricAttachCostDoz := toNum w.fabricAttachCostDoz
      timingMin := jsTrunc (toNum w.timingMin)
      cmDoz := toNum w.cmDoz
      rocPct := toNum w.rocPct }
  computed :=
    { lbsPerDoz := c.lbsPerDoz
      lbsWithWastage := c.lbsWithWastage
      yarnCostDoz := c.yarnCostDoz
      totalDoz := c.totalDoz
      fobPerPc := c.fobPerPc
      finalPerPc := c.finalPerPc }

/-- The persistence collaborator state: the product store and the single
draft slot (src/db.js). -/
structure Store where
  products : List Product
  draft : Option DraftState
deriving DecidableEq, Repr

/-- The `requiredChecks` array of `calculateAndSave`: style, yarn price,
weight, wastage, CM, and the (computed-kind) `rocPct` step, with absent
lookups filtered out. -/
def requiredChecks : List Step :=
  [ STEPS.get? 0,
    STEPS.find? (fun st => st.id == "yarnPricePerLb"),
    STEPS.find? (fun st => st.id == "weightGm"),
    STEPS.find? (fun st => st.id == "wastagePct"),
    STEPS.find? (fun st => st.id == "cmDoz"),
    STEPS.find? (fun st => st.id == "rocPct") ].reduceOption

/-- The message of the first failing required check in `calculateAndSave`
(`v.message || 'Please correct the input.'`), or `none` when re-validation
passes. -/
def firstFailureMsg (w : DraftState) : Option String :=
  requiredChecks.findSome? fun st =>
    if (validateStep st w).ok then none
    else some ((validateStep st w).message.getD "Please correct the input.")

/-- Result of a commit attempt: the wizard fields (`wizardState`,
`wizardStepIndex`), the persistence store, the record handed to
`putProduct` (if any), and the surfaced error message (if any). -/
structure CommitResult where
  wizardState : Option DraftState
  stepIndex : ℤ
  store : Store
  saved : Option Product
  errorMsg : Option String
deriving DecidableEq, Repr

/-- `calculateAndSave` from app.js. `putOk` models whether
`GCDB.putProduct` succeeds; `clearOk` whether `clearDraft` succeeds (its
failure is swallowed by a `catch`, so a failed clear leaves the draft in
the store while the commit still completes). A `putProduct` failure is
caught: nothing is stored, the draft survives and the wizard state is
untouched. -/
def calculateAndSave (w : DraftState) (i : ℤ) (st : Store) (putOk clearOk : Bool)
    (newId now : String) : CommitResult :=
  match firstFailureMsg w with
  | some msg =>
    { wizardState := some w, stepIndex := i, store := st, saved := none,
      errorMsg := some msg }
  | none =>
    let c := computeAll w
    let p := buildProduct w c newId now
    if putOk then
      { wizardState := none, stepIndex := 0,
        store := { products := st.products ++ [p],
                   draft := if clearOk then none else st.draft },
        saved := some p, errorMsg := none }
    else
      { wizardState := some w, stepIndex := i, store := st, saved := none,
        errorMsg := some "Could not save this costing. Please try again." }

/-- C6: the commit is all-or-nothing. If any required re-validation fails
or the record write fails, the store (records and draft slot), the draft
contents, and the step index are all unchanged and no record is saved; and
the draft slot can only become empty when the record write succeeded. -/
theorem calculateAndSave_all_or_nothing (w : DraftState) (i : ℤ) (st : Store)
    (putOk clearOk : Bool) (newId now : String) :
    ((firstFailureMsg w ≠ none ∨ putOk = false) →
      (calculateAndSave w i st putOk clearOk newId now).store = st ∧
      (calculateAndSave w i st putOk clearOk newId now).wizardState = some w ∧
      (calculateAndSave w i st putOk clearOk newId now).stepIndex = i ∧
      (calculateAndSave w i st putOk clearOk newId now).saved = none) ∧
    (st.draft ≠ none →
      (calculateAndSave w i st putOk clearOk newId now).store.draft = none →
      putOk = true ∧ firstFailureMsg w = none ∧
      (calculateAndSave w i st putOk clearOk newId now).saved ≠ none) := by
  cases hm : firstFailureMsg w <;> cases putOk <;> cases clearOk <;>
    simp [calculateAndSave, hm]

/-- The persistence store holding one prior draft, used by witnesses. -/
def storeWithDraft : Store :=
  { products := [], draft := some defaultWizardState }

/-- The empty persistence store. -/
def emptyStore : Store := { products := [], draft := none }

/-- Witness for C6 at a concrete failing commit: the default draft has an
empty style name, so re-validation fails and nothing changes. -/
theorem calculateAndSave_all_or_nothing_witness :
    (calculateAndSave defaultWizardState 15 storeWithDraft true true "id-1" "t0").store =
      storeWithDraft ∧
    (calculateAndSave defaultWizardState 15 storeWithDraft true true "id-1" "t0").wizardState =
      some defaultWizardState ∧
    (calculateAndSave defaultWizardState 15 storeWithDraft true true "id-1" "t0").stepIndex = 15 ∧
    (calculateAndSave defaultWizardState 15 storeWithDraft true true "id-1" "t0").saved = none :=
  (calculateAndSave_all_or_nothing defaultWizardState 15 storeWithDraft true true
    "id-1" "t0").1 (Or.inl (by decide))

/-- The style-group step (`STEPS[0]`). -/
def styleStep0 : Step :=
  { id := "styleInfo", kind := .style, title := "STEP 1: Basic Style Information" }

/-- If the commit re-validation passes, every required check accepted. -/
theorem firstFailureMsg_none_ok (w : DraftState) (h : firstFailureMsg w = none) :
    ∀ st ∈ requiredChecks, (validateStep st w).ok = true := by
  rw [firstFailureMsg, List.findSome?_eq_none_iff] at h
  intro st hst
  have h2 := h st hst
  by_cases hok : (validateStep st w).ok = true
  · exact hok
  · rw [if_neg hok] at h2
    exact Option.noConfusion h2

/-- A draft accepted by the style-group validation has a strictly positive
numeric weight. -/
theorem style_ok_weight_pos (w : DraftState)
    (h : (validateStep styleStep0 w).ok = true) : 0 < toNum w.weightGm := by
  by_contra hneg
  rw [validateStep, if_pos (show styleStep0.kind = StepKind.style from rfl)] at h
  split_ifs at h with h1 h2 h3 h4 h5

/-- C10: every record that `calculateAndSave` actually hands to the store
has a strictly positive frozen weight, and its frozen snapshot has
non-null pounds-per-dozen, pounds-with-wastage, and yarn-cost-per-dozen:
the null branch of the pipeline is unreachable for committed records. -/
theorem calculateAndSave_committed_nonnull (w : DraftState) (i : ℤ) (st : Store)
    (putOk clearOk : Bool) (newId now : String) (p : Product)
    (h : (calculateAndSave w i st putOk clearOk newId now).saved = some p) :
    0 < p.weightGm ∧ p.computed.lbsPerDoz ≠ none ∧
    p.computed.lbsWithWastage ≠ none ∧ p.computed.yarnCostDoz ≠ none := by
  cases hm : firstFailureMsg w with
  | some msg => simp [calculateAndSave, hm] at h
  | none =>
    cases putOk with
    | false => simp [calculateAndSave, hm] at h
    | true =>
      have hp : p = buildProduct w (computeAll w) newId now := by
        simp [calculateAndSave, hm] at h
        exact h.symm
      have hw : 0 < toNum w.weightGm :=
        style_ok_weight_pos w (firstFailureMsg_none_ok w hm styleStep0 (by decide))
      subst hp
      refine ⟨hw, ?_, ?_, ?_⟩ <;> simp [buildProduct, computeAll, if_pos hw]

/-- A fully valid draft: Scenario A numbers plus complete style data. -/
def goodDraft : DraftState :=
  { scenarioADraft with
    styleName := "1683N L - Pullover"
    yarnDesc := "Cotton yarn"
    gauge := some 12
    photo := some
      { blob := some { bytes := [1, 2, 3], type := "image/jpeg" }
        width := some 100, height := some 100, type := "image/jpeg" } }

/-- Witness for C10 at a concrete successful commit of `goodDraft`. -/
theorem calculateAndSave_committed_nonnull_witness :
    0 < (buildProduct goodDraft (computeAll goodDraft) "id-1" "t0").weightGm ∧
    (buildProduct goodDraft (computeAll goodDraft) "id-1" "t0").computed.lbsPerDoz ≠ none ∧
    (buildProduct goodDraft (computeAll goodDraft) "id-1" "t0").computed.lbsWithWastage ≠ none ∧
    (buildProduct goodDraft (computeAll goodDraft) "id-1" "t0").computed.yarnCostDoz ≠ none :=
  calculateAndSave_committed_nonnull goodDraft 15 emptyStore true true "id-1" "t0"
    (buildProduct goodDraft (computeAll goodDraft) "id-1" "t0")
    (by simp [calculateAndSave, show firstFailureMsg goodDraft = none from by decide])

/-- Placeholder step for an out-of-range index (JS would read `undefined`;
every theorem below constrains the index to the valid range). -/
def fallbackStep : Step := { id := "", kind := .computed, title := "" }

/-- `STEPS[wizardStepIndex]` for an integer index. -/
def stepAt (i : ℤ) : Step := STEPS.getD i.toNat fallbackStep

/-- `wizardPrev` from app.js: no validation, decrement floored at 0. -/
def wizardPrevIdx (i : ℤ) : ℤ := max 0 (i - 1)

/-- The step index after `wizardNext` from app.js: validation failure
stays; an accepted preview step runs `calculateAndSave` (index 0 on a
successful commit, unchanged otherwise); any other accepted step moves to
`min (STEPS.length - 1) (i + 1)`. -/
def wizardNextIdx (w : DraftState) (st : Store) (putOk clearOk : Bool)
    (newId now : String) (i : ℤ) : ℤ :=
  if (validateStep (stepAt i) w).ok then
    if (stepAt i).kind = StepKind.preview then
      (calculateAndSave w i st putOk clearOk newId now).stepIndex
    else min ((STEPS.length : ℤ) - 1) (i + 1)
  else i

/-- The preview-row jump from app.js:
`Math.max(0, Math.min(STEPS.length - 1, jump))`. -/
def jumpIdx (j : ℤ) : ℤ := max 0 (min ((STEPS.length : ℤ) - 1) j)

/-- A navigation operation, carrying the draft/store/oracle context in
which it runs (the drafts may differ between operations, modelling edits
made along the way). -/
inductive WizOp where
  | next (w : DraftState) (st : Store) (putOk clearOk : Bool) (newId now : String)
  | prev
  | jump (j : ℤ)

/-- One navigation operation applied to the step index. -/
def applyOp (i : ℤ) : WizOp → ℤ
  | .next w st putOk clearOk newId now => wizardNextIdx w st putOk clearOk newId now i
  | .prev => wizardPrevIdx i
  | .jump j => jumpIdx j

/-- A sequence of navigation operations applied to the step index. -/
def runOps (i : ℤ) : List WizOp → ℤ
  | [] => i
  | op :: rest => runOps (applyOp i op) rest

/-- A commit either resets the index to 0 (success) or leaves it. -/
theorem calculateAndSave_stepIndex (w : DraftState) (i : ℤ) (st : Store)
    (putOk clearOk : Bool) (newId now : String) :
    (calculateAndSave w i st putOk clearOk newId now).stepIndex = 0 ∨
    (calculateAndSave w i st putOk clearOk newId now).stepIndex = i := by
  cases hm : firstFailureMsg w <;> cases putOk <;> simp [calculateAndSave, hm]

/-- Only the last schema index (15) carries the preview step. -/
theorem stepAt_not_preview_lt (i : ℤ) (h0 : 0 ≤ i) (h1 : i ≤ (STEPS.length : ℤ) - 1)
    (h : (stepAt i).kind ≠ StepKind.preview) : i ≤ (STEPS.length : ℤ) - 2 := by
  have hlen : (STEPS.length : ℤ) = 16 := by rfl
  rw [hlen] at h1 ⊢
  by_contra hc
  have hi : i = 15 := by omega
  subst hi
  exact h rfl

/-- Each navigation operation preserves the valid index range. -/
theorem applyOp_range (i : ℤ) (h0 : 0 ≤ i) (h1 : i ≤ (STEPS.length : ℤ) - 1)
    (op : WizOp) : 0 ≤ applyOp i op ∧ applyOp i op ≤ (STEPS.length : ℤ) - 1 := by
  have hlen : (STEPS.length : ℤ) = 16 := by rfl
  rw [hlen] at h1 ⊢
  cases op with
  | prev =>
    simp only [applyOp, wizardPrevIdx]
    omega
  | jump j =>
    simp only [applyOp, jumpIdx, hlen]
    omega
  | next w st putOk clearOk newId now =>
    simp only [applyOp, wizardNextIdx, hlen]
    split_ifs with hok hprev
    · rcases calculateAndSave_stepIndex w i st putOk clearOk newId now with h | h <;>
        rw [h] <;> omega
    · omega
    · omega

/-- The range invariant holds after any operation sequence. -/
theorem runOps_range (ops : List WizOp) :
    ∀ i : ℤ, 0 ≤ i → i ≤ (STEPS.length : ℤ) - 1 →
      0 ≤ runOps i ops ∧ runOps i ops ≤ (STEPS.length : ℤ) - 1 := by
  induction ops with
  | nil => intro i h0 h1; exact ⟨h0, h1⟩
  | cons op rest ih =>
    intro i h0 h1
    have h := applyOp_range i h0 h1 op
    exact ih _ h.1 h.2

/-- C5: retreat ignores the draft and maps the index to `max 0 (i - 1)`;
a rejected advance stays in place; an accepted advance on a non-preview
step moves to `i + 1`; and after any sequence of advance/retreat/jump
operations the index stays within `0 .. STEPS.length - 1` (no state beyond
the preview step). -/
theorem wizard_navigation (i : ℤ) (h0 : 0 ≤ i) (h1 : i ≤ (STEPS.length : ℤ) - 1) :
    wizardPrevIdx i = max 0 (i - 1) ∧
    (∀ w st putOk clearOk newId now, (validateStep (stepAt i) w).ok = false →
      wizardNextIdx w st putOk clearOk newId now i = i) ∧
    (∀ w st putOk clearOk newId now, (stepAt i).kind ≠ StepKind.preview →
      (validateStep (stepAt i) w).ok = true →
      wizardNextIdx w st putOk clearOk newId now i = i + 1) ∧
    (∀ ops : List WizOp, 0 ≤ runOps i ops ∧
      runOps i ops ≤ (STEPS.length : ℤ) - 1) := by
  refine ⟨rfl, ?_, ?_, fun ops => runOps_range ops i h0 h1⟩
  · intro w st putOk clearOk newId now hfail
    simp [wizardNextIdx, hfail]
  · intro w st putOk clearOk newId now hprev hok
    have hle := stepAt_not_preview_lt i h0 h1 hprev
    have hlen : (STEPS.length : ℤ) = 16 := by rfl
    rw [hlen] at hle
    simp only [wizardNextIdx, hok, if_true, if_neg hprev, hlen]
    omega

/-- Witness for C5: retreat from 3, an accepted advance on the computed
step 3, and a sequence staying in range. -/
theorem wizard_navigation_witness :
    wizardPrevIdx 3 = max 0 (3 - 1) ∧
    wizardNextIdx defaultWizardState emptyStore true true "id-1" "t0" 3 = 3 + 1 ∧
    (0 ≤ runOps 3 [WizOp.prev, WizOp.jump 99] ∧
      runOps 3 [WizOp.prev, WizOp.jump 99] ≤ (STEPS.length : ℤ) - 1) := by
  have h := wizard_navigation 3 (by decide) (by decide)
  exact ⟨h.1,
    h.2.2.1 defaultWizardState emptyStore true true "id-1" "t0" (by decide) (by decide),
    h.2.2.2 [WizOp.prev, WizOp.jump 99]⟩

/-- `openWizard` from app.js, as a pure function on its collaborator
inputs: the stored draft (consulted only when `resume` is requested),
the optional `baseData` used by duplication, and the resulting normalised
wizard state and step index. The normalisation trims the currency, turns a
blank wastage field into 8, and turns a blank `rocPct` field into 0. -/
def openWizardState (resume : Bool) (stored : Option DraftState)
    (baseData : Option DraftState) : DraftState × ℤ :=
  let draft := if resume then stored else none
  let w0 :=
    match baseData with
    | some b => b
    | none =>
      match draft with
      | some d => d
      | none => defaultWizardState
  let w1 := { w0 with
    currency := jsTrim (jsOrStr (some w0.currency) DEFAULT_CURRENCY)
    wastagePct := if w0.wastagePct = FieldVal.blank then FieldVal.num 8 else w0.wastagePct
    rocPct := if w0.rocPct = FieldVal.blank then FieldVal.num 0 else w0.rocPct }
  (w1, 0)

/-- A resumable draft whose markup field is blank. -/
def blankRocDraft : DraftState :=
  { defaultWizardState with rocPct := .blank }

/-- A resumable draft whose wastage and markup fields are both blank. -/
def blankPctDraft : DraftState :=
  { defaultWizardState with wastagePct := .blank, rocPct := .blank }

/-- Counterexample to C8 as stated: resuming a draft whose markup field is
blank restores it to 0, not to the fixed constant 2.5. -/
theorem openWizard_blank_markup_counterexample :
    (openWizardState true (some blankRocDraft) none).1.rocPct = FieldVal.num 0 ∧
    FieldVal.num 0 ≠ FieldVal.num FIXED_ROC_PCT := by
  constructor
  · rfl
  · simp [FIXED_ROC_PCT]
    norm_num

/-- C8 (amended): without a resumable draft the wizard starts at step 0
with schema defaults (wastage 8, markup field 2.5, every other numeric
field 0 or blank); when resuming, a blank wastage field is restored to 8
and a blank markup field is normalised to 0 (not to the fixed
constant). -/
theorem openWizard_defaults (sd : Option DraftState) (d : DraftState) :
    (openWizardState false sd none).2 = 0 ∧
    (openWizardState false sd none).1.wastagePct = FieldVal.num 8 ∧
    (openWizardState false sd none).1.rocPct = FieldVal.num FIXED_ROC_PCT ∧
    (openWizardState false sd none).1.yarnPricePerLb = FieldVal.blank ∧
    (openWizardState false sd none).1.weightGm = FieldVal.blank ∧
    (openWizardState false sd none).1.accessoriesCostDoz = FieldVal.num 0 ∧
    (openWizardState false sd none).1.fabricDoz = FieldVal.num 0 ∧
    (openWizardState false sd none).1.fabricCostDoz = FieldVal.num 0 ∧
    (openWizardState false sd none).1.fabricAttachCostDoz = FieldVal.num 0 ∧
    (openWizardState false sd none).1.timingMin = FieldVal.num 0 ∧
    (openWizardState false sd none).1.cmDoz = FieldVal.num 0 ∧
    (openWizardState true (some d) none).2 = 0 ∧
    (d.wastagePct = FieldVal.blank →
      (openWizardState true (some d) none).1.wastagePct = FieldVal.num 8) ∧
    (d.rocPct = FieldVal.blank →
      (openWizardState true (some d) none).1.rocPct = FieldVal.num 0) := by
  refine ⟨rfl, rfl, rfl, rfl, rfl, rfl, rfl, rfl, rfl, rfl, rfl, rfl, ?_, ?_⟩
  · intro h
    simp [openWizardState, h]
  · intro h
    simp [openWizardState, h]

/-- Witness for C8 (amended) on a draft with blank wastage and markup. -/
theorem openWizard_defaults_witness :
    (openWizardState true (some blankPctDraft) none).1.wastagePct = FieldVal.num 8 ∧
    (openWizardState true (some blankPctDraft) none).1.rocPct = FieldVal.num 0 :=
  ⟨(openWizard_defaults none blankPctDraft).2.2.2.2.2.2.2.2.2.2.2.2.1 rfl,
   (openWizard_defaults none blankPctDraft).2.2.2.2.2.2.2.2.2.2.2.2.2 rfl⟩

/-- The base64 alphabet in index order. -/
def b64Alphabet : List Char :=
  "ABCDEFGHIJKLMNOPQRSTUVWXYZabcdefghijklmnopqrstuvwxyz0123456789+/".data

/-- The base64 digit for a 6-bit value. -/
def b64Char (n : ℕ) : Char := b64Alphabet.getD n 'A'

/-- The 6-bit value of a base64 digit (`atob` lookup). -/
def b64Val (c : Char) : ℕ := b64Alphabet.indexOf c

/-- RFC 4648 base64 of a byte list, as produced by
`FileReader.readAsDataURL` for the blob payload: 3 bytes become 4 digits,
with `=` padding for a 1- or 2-byte tail. -/
def b64EncodeBytes : List ℕ → List Char
  | a :: b :: c :: rest =>
    b64Char (a / 4) :: b64Char (a % 4 * 16 + b / 16) ::
      b64Char (b % 16 * 4 + c / 64) :: b64Char (c % 64) :: b64EncodeBytes rest
  | [a, b] => [b64Char (a / 4), b64Char (a % 4 * 16 + b / 16), b64Char (b % 16 * 4), '=']
  | [a] => [b64Char (a / 4), b64Char (a % 4 * 16), '=', '=']
  | [] => []

/-- `atob` on a base64 digit string: each 4-digit group yields 3 bytes,
fewer when terminated by `=` padding. -/
def b64DecodeChars : List Char → List ℕ
  | c1 :: c2 :: c3 :: c4 :: rest =>
    if c3 = '=' then [b64Val c1 * 4 + b64Val c2 / 16]
    else if c4 = '=' then
      [b64Val c1 * 4 + b64Val c2 / 16, b64Val c2 % 16 * 16 + b64Val c3 / 4]
    else
      (b64Val c1 * 4 + b64Val c2 / 16) :: (b64Val c2 % 16 * 16 + b64Val c3 / 4) ::
        (b64Val c3 % 4 * 64 + b64Val c4) :: b64DecodeChars rest
  | _ => []

/-- Decoding inverts the digit table on 6-bit values. -/
theorem b64Val_b64Char : ∀ n : ℕ, n < 64 → b64Val (b64Char n) = n := by decide

/-- Base64 digits are never the padding character. -/
theorem b64Char_ne_pad : ∀ n : ℕ, n < 64 → b64Char n ≠ '=' := by decide

/-- No base64 digit (for any index) is a comma. -/
theorem b64Char_ne_comma (n : ℕ) : b64Char n ≠ ',' := by
  by_cases h : n < 64
  · exact (by decide : ∀ m : ℕ, m < 64 → b64Char m ≠ ',') n h
  · rw [b64Char, List.getD_eq_default]
    · decide
    · simp only [not_lt] at h
      calc b64Alphabet.length = 64 := by decide
        _ ≤ n := h

/-- Encoded output never contains a comma (so the data-URL split at commas
recovers the whole payload). -/
theorem comma_not_in_encode : ∀ l : List ℕ, ',' ∉ b64EncodeBytes l
  | [] => by simp [b64EncodeBytes]
  | [a] => by
    simp only [b64EncodeBytes, List.mem_cons, List.not_mem_nil, or_false]
    push_neg
    exact ⟨(b64Char_ne_comma _).symm, (b64Char_ne_comma _).symm, by decide, by decide⟩
  | [a, b] => by
    simp only [b64EncodeBytes, List.mem_cons, List.not_mem_nil, or_false]
    push_neg
    exact ⟨(b64Char_ne_comma _).symm, (b64Char_ne_comma _).symm,
      (b64Char_ne_comma _).symm, by decide⟩
  | a :: b :: c :: rest => by
    simp only [b64EncodeBytes, List.mem_cons]
    push_neg
    exact ⟨(b64Char_ne_comma _).symm, (b64Char_ne_comma _).symm, (b64Char_ne_comma _).symm,
      (b64Char_ne_comma _).symm, comma_not_in_encode rest⟩

/-- `atob` of the base64 encoding gives back the bytes. -/
theorem b64_decode_encode : ∀ l : List ℕ, (∀ x ∈ l, x < 256) →
    b64DecodeChars (b64EncodeBytes l) = l
  | [], _ => rfl
  | [a], h => by
    have ha : a < 256 := h a (by simp)
    simp only [b64EncodeBytes, b64DecodeChars]
    rw [if_pos trivial, b64Val_b64Char _ (by omega), b64Val_b64Char _ (by omega),
      show a / 4 * 4 + a % 4 * 16 / 16 = a from by omega]
  | [a, b], h => by
    have ha : a < 256 := h a (by simp)
    have hb : b < 256 := h b (by simp)
    simp only [b64EncodeBytes, b64DecodeChars]
    rw [if_neg (b64Char_ne_pad _ (by omega)), if_pos trivial,
      b64Val_b64Char _ (by omega), b64Val_b64Char _ (by omega), b64Val_b64Char _ (by omega),
      show a / 4 * 4 + (a % 4 * 16 + b / 16) / 16 = a from by omega,
      show (a % 4 * 16 + b / 16) % 16 * 16 + b % 16 * 4 / 4 = b from by omega]
  | a :: b :: c :: rest, h => by
    have ha : a < 256 := h a (by simp)
    have hb : b < 256 := h b (by simp)
    have hc : c < 256 := h c (by simp)
    simp only [b64EncodeBytes, b64DecodeChars]
    rw [if_neg (b64Char_ne_pad _ (by omega)), if_neg (b64Char_ne_pad _ (by omega)),
      b64Val_b64Char _ (by omega), b64Val_b64Char _ (by omega),
      b64Val_b64Char _ (by omega), b64Val_b64Char _ (by omega),
      show a / 4 * 4 + (a % 4 * 16 + b / 16) / 16 = a from by omega,
      show (a % 4 * 16 + b / 16) % 16 * 16 + (b % 16 * 4 + c / 64) / 4 = b from by omega,
      show (b % 16 * 4 + c / 64) % 4 * 64 + c % 64 = c from by omega,
      b64_decode_encode rest (fun x hx => h x (by simp [hx]))]

/-- `blobToDataUrl` from app.js (`FileReader.readAsDataURL`): a data URL
carrying the blob MIME type and the base64 payload. -/
def blobToDataUrl (b : JSBlob) : String :=
  "data:" ++ b.type ++ ";base64," ++ String.mk (b64EncodeBytes b.bytes)

/-- The fallback MIME type of `dataUrlToBlob`. -/
def octetStream : String := "application/octet-stream"

/-- The lazy group of the regex `/data:(.*?);base64/` once `data:` has
matched: the shortest prefix followed by the literal `;base64`, or `none`
when no completion exists. -/
def lazyCapture : List Char → Option (List Char)
  | [] => none
  | c :: cs =>
    if ";base64".data.isPrefixOf (c :: cs) then some []
    else (lazyCapture cs).map (fun t => c :: t)

/-- The unanchored search of `/data:(.*?);base64/`: try each start
position; where `data:` matches, take the lazy capture if the rest of the
pattern can complete, otherwise move on. -/
def findDataMatch : List Char → Option (List Char)
  | [] => none
  | c :: cs =>
    if "data:".data.isPrefixOf (c :: cs) then
      match lazyCapture ((c :: cs).drop 5) with
      | some t => some t
      | none => findDataMatch cs
    else findDataMatch cs

/-- `meta.match(/data:(.*?);base64/)?.[1] || 'application/octet-stream'`:
the captured MIME type, with the fallback both for a failed match and for
an empty capture (which JS treats as falsy). -/
def extractMime (meta : List Char) : String :=
  match findDataMatch meta with
  | some t => if t = [] then octetStream else String.mk t
  | none => octetStream

/-- `dataUrlToBlob` from app.js: split the data URL at commas
(destructuring keeps the first two fields), read the MIME type from the
metadata part, and `atob`-decode the payload part. -/
def dataUrlToBlob (s : String) : JSBlob :=
  let meta := s.data.takeWhile (fun c => c != ',')
  let b64 := ((s.data.dropWhile (fun c => c != ',')).tail).takeWhile (fun c => c != ',')
  { bytes := b64DecodeChars b64, type := extractMime meta }

/-- Splitting at the first failing element of an interrupted run. -/
theorem takeWhile_append_stop (p : Char → Bool) (A B : List Char) (c : Char)
    (hA : ∀ a ∈ A, p a = true) (hc : p c = false) :
    (A ++ c :: B).takeWhile p = A ∧ (A ++ c :: B).dropWhile p = c :: B := by
  induction A with
  | nil => simp [List.takeWhile_cons, List.dropWhile_cons, hc]
  | cons a as ih =>
    have hpa := hA a (by simp)
    have h2 := ih (fun x hx => hA x (by simp [hx]))
    simp [List.takeWhile_cons, List.dropWhile_cons, hpa, h2.1, h2.2]

/-- A list is a Boolean prefix of itself followed by anything. -/
theorem isPrefixOf_append_self (l r : List Char) : l.isPrefixOf (l ++ r) = true := by
  induction l with
  | nil => simp [List.isPrefixOf]
  | cons a as ih => simpa [List.isPrefixOf] using ih

/-- On `t ++ ";base64"` with a semicolon-free `t`, the lazy capture is
exactly `t`. -/
theorem lazyCapture_exact (t : List Char) (ht : ';' ∉ t) :
    lazyCapture (t ++ ";base64".data) = some t := by
  induction t with
  | nil =>
    have hself : (";base64".data).isPrefixOf (';' :: "base64".data) = true := by
      have h := isPrefixOf_append_self ";base64".data []
      rwa [List.append_nil] at h
    show lazyCapture (';' :: "base64".data) = some []
    rw [lazyCapture, if_pos hself]
  | cons c cs ih =>
    have hc : c ≠ ';' := fun h => ht (by simp [h])
    have hpre : ¬ (";base64".data.isPrefixOf (c :: (cs ++ ";base64".data)) = true) := by
      intro h
      rw [show ";base64".data = ';' :: "base64".data from rfl] at h
      simp only [List.isPrefixOf, Bool.and_eq_true, beq_iff_eq] at h
      exact hc h.1.symm
    rw [List.cons_append, lazyCapture, if_neg hpre, ih (fun h => ht (by simp [h]))]
    rfl

/-- A run entirely satisfying the predicate is kept whole. -/
theorem takeWhile_of_all (p : Char → Bool) : ∀ l : List Char,
    (∀ a ∈ l, p a = true) → l.takeWhile p = l
  | [], _ => rfl
  | a :: as, h => by
    rw [List.takeWhile_cons, if_pos (h a (by simp)),
      takeWhile_of_all p as (fun x hx => h x (by simp [hx]))]

/-- On a metadata part of the shape `data:<type>;base64` with a nonempty,
semicolon-free type, the MIME extraction returns the type. -/
theorem extract_of_wellformed (T : List Char) (hT : T ≠ []) (hsemi : ';' ∉ T) :
    extractMime ("data:".data ++ (T ++ ";base64".data)) = String.mk T := by
  have hfind : findDataMatch ("data:".data ++ (T ++ ";base64".data)) = some T := by
    show findDataMatch ('d' :: 'a' :: 't' :: 'a' :: ':' :: (T ++ ";base64".data)) = some T
    have hpre : "data:".data.isPrefixOf
        ('d' :: 'a' :: 't' :: 'a' :: ':' :: (T ++ ";base64".data)) = true :=
      isPrefixOf_append_self "data:".data (T ++ ";base64".data)
    rw [findDataMatch, if_pos hpre,
      show ('d' :: 'a' :: 't' :: 'a' :: ':' :: (T ++ ";base64".data)).drop 5 =
        T ++ ";base64".data from rfl,
      lazyCapture_exact T hsemi]
  simp only [extractMime, hfind]
  rw [if_neg hT]

/-- The data-URL round trip: `dataUrlToBlob (blobToDataUrl b)` restores
the blob exactly, for bytes below 256 and a nonempty MIME type free of
commas and semicolons (every blob the app produces satisfies this). -/
theorem dataUrl_roundTrip (b : JSBlob)
    (hbytes : ∀ x ∈ b.bytes, x < 256) (hty : b.type ≠ "")
    (hcomma : ',' ∉ b.type.data) (hsemi : ';' ∉ b.type.data) :
    dataUrlToBlob (blobToDataUrl b) = b := by
  have hdata : (blobToDataUrl b).data =
      ("data:".data ++ (b.type.data ++ ";base64".data)) ++
        (',' :: b64EncodeBytes b.bytes) := by
    simp only [blobToDataUrl, String.data_append, List.append_assoc]
    rfl
  have hAall : ∀ a ∈ "data:".data ++ (b.type.data ++ ";base64".data),
      (a != ',') = true := by
    intro a ha
    rw [List.mem_append, List.mem_append] at ha
    rcases ha with h | h | h
    · exact (by decide : ∀ a ∈ "data:".data, (a != ',') = true) a h
    · have hne : a ≠ ',' := fun he => hcomma (he ▸ h)
      simpa using hne
    · exact (by decide : ∀ a ∈ ";base64".data, (a != ',') = true) a h
  obtain ⟨htake, hdrop⟩ := takeWhile_append_stop (fun c => c != ',')
    ("data:".data ++ (b.type.data ++ ";base64".data)) (b64EncodeBytes b.bytes) ','
    hAall (by decide)
  have htype : b.type.data ≠ [] := by
    intro h
    apply hty
    have he : b.type = String.mk b.type.data := rfl
    rw [he, h]
  have henc : (b64EncodeBytes b.bytes).takeWhile (fun c => c != ',') =
      b64EncodeBytes b.bytes :=
    takeWhile_of_all _ _ (fun a ha => by
      have hne : a ≠ ',' := fun he => comma_not_in_encode b.bytes (he ▸ ha)
      simpa using hne)
  simp only [dataUrlToBlob, hdata, htake, hdrop]
  rw [show (',' :: b64EncodeBytes b.bytes).tail = b64EncodeBytes b.bytes from rfl,
    henc, b64_decode_encode b.bytes hbytes]
  have hmime : extractMime (['d', 'a', 't', 'a', ':'] ++
      (b.type.data ++ [';', 'b', 'a', 's', 'e', '6', '4'])) = String.mk b.type.data :=
    extract_of_wellformed b.type.data htype hsemi
  rw [hmime]

/-- The photo entry of an exported backup item: the blob inlined as a
base64 data URL. -/
structure ExportedPhoto where
  base64 : String
  type : String
  width : Option ℚ
  height : Option ℚ
deriving DecidableEq, Repr

/-- A backup item: the record with its photo replaced by the base64
form (`{...p, photo: ...}` in `exportBackup`). -/
structure ExportedProduct where
  id : String
  createdAt : String
  updatedAt : String
  appVersion : String
  calcVersion : String
  styleName : String
  yarnDesc : String
  composition : String
  gauge : ℚ
  weightGm : ℚ
  currency : String
  photo : Option ExportedPhoto
  inputs : ProductInputs
  computed : StoredComputed
deriving DecidableEq, Repr

/-- One item of `exportBackup`: every field of the record is kept and the
photo (when it has a blob) becomes `{ base64, type, width, height }` with
the type defaulted to `image/jpeg` when falsy; a record without a photo
blob exports `photo: null`. -/
def exportRecord (p : Product) : ExportedProduct where
  id := p.id
  createdAt := p.createdAt
  updatedAt := p.updatedAt
  appVersion := p.appVersion
  calcVersion := p.calcVersion
  styleName := p.styleName
  yarnDesc := p.yarnDesc
  composition := p.composition
  gauge := p.gauge
  weightGm := p.weightGm
  currency := p.currency
  photo :=
    match p.photo with
    | some ph =>
      match ph.blob with
      | some b => some
        { base64 := blobToDataUrl b
          type := jsOrStr (some ph.type) "image/jpeg"
          width := ph.width
          height := ph.height }
      | none => none
    | none => none
  inputs := p.inputs
  computed := p.computed

/-- One item of `importBackup`: the clone of the raw item with the photo
blob reconstructed from the base64 data URL. In JS a photo object whose
`base64` is falsy is kept verbatim (and then carries no blob); exported
items never have one, and the model maps that unreachable case to
`none`. -/
def importRecord (e : ExportedProduct) : Product where
  id := e.id
  createdAt := e.createdAt
  updatedAt := e.updatedAt
  appVersion := e.appVersion
  calcVersion := e.calcVersion
  styleName := e.styleName
  yarnDesc := e.yarnDesc
  composition := e.composition
  gauge := e.gauge
  weightGm := e.weightGm
  currency := e.currency
  photo :=
    match e.photo with
    | some ep =>
      if ep.base64 = "" then none
      else some
        { blob := some (dataUrlToBlob ep.base64)
          type := jsOrStr (some ep.type) "image/jpeg"
          width := jsOrNull ep.width
          height := jsOrNull ep.height }
    | none => none
  inputs := e.inputs
  computed := e.computed

/-- The backup JSON document produced by `exportBackup`. -/
structure Backup where
  schema : String
  exportedAt : String
  appVersion : String
  calcVersion : String
  items : List ExportedProduct
deriving DecidableEq, Repr

/-- `exportBackup` from app.js, over the current record list. -/
def exportBackup (items : List Product) (now : String) : Backup where
  schema := "garment-costing-backup-v2"
  exportedAt := now
  appVersion := APP_VERSION
  calcVersion := CALC_VERSION
  items := items.map exportRecord

/-- `importBackup` from app.js: the record list handed to `GCDB.bulkPut`
(the malformed-file rejection cannot fire on a well-typed `Backup`, whose
`items` is always an array). -/
def importBackup (b : Backup) : List Product :=
  b.items.map importRecord

/-- A blob as the app stores it: bytes below 256 and a nonempty MIME type
without commas or semicolons (`canvas.toBlob` yields `image/jpeg`). -/
def GoodBlob (b : JSBlob) : Prop :=
  (∀ x ∈ b.bytes, x < 256) ∧ b.type ≠ "" ∧ ',' ∉ b.type.data ∧ ';' ∉ b.type.data

/-- A record photo that survives the export/import maps unchanged: absent,
or carrying a good blob, a nonempty type, and width/height that are not
the falsy 0 (records built by `calculateAndSave` satisfy all of this). -/
def GoodPhoto (p : Product) : Prop :=
  match p.photo with
  | none => True
  | some ph =>
    (∃ b, ph.blob = some b ∧ GoodBlob b) ∧ ph.type ≠ "" ∧
      ph.width ≠ some 0 ∧ ph.height ≠ some 0

/-- `x || null` keeps any value other than the falsy 0. -/
theorem jsOrNull_eq_self (o : Option ℚ) (h : o ≠ some 0) : jsOrNull o = o := by
  cases o with
  | none => rfl
  | some x =>
    rw [jsOrNull, if_neg]
    intro h0
    exact h (by rw [h0])

/-- A produced data URL is never the empty string. -/
theorem blobToDataUrl_ne_empty (b : JSBlob) : blobToDataUrl b ≠ "" := by
  intro h
  have hd : (blobToDataUrl b).data = [] := by rw [h]
  rw [show (blobToDataUrl b).data = 'd' :: ("ata:" ++ b.type ++ ";base64," ++
    String.mk (b64EncodeBytes b.bytes)).data from rfl] at hd
  exact List.noConfusion hd

/-- Exporting and importing a single record restores it exactly when its
photo is well-formed. -/
theorem importRecord_exportRecord (p : Product) (hp : GoodPhoto p) :
    importRecord (exportRecord p) = p := by
  cases hph : p.photo with
  | none =>
    simp only [importRecord, exportRecord, hph]
    rw [← hph]
  | some ph =>
    rw [GoodPhoto, hph] at hp
    obtain ⟨⟨b, hblob, hbytes, htyb, hcomma, hsemi⟩, hty, hw, hh⟩ := hp
    have hjs : jsOrStr (some ph.type) "image/jpeg" = ph.type := by
      rw [jsOrStr, if_neg hty]
    simp only [importRecord, exportRecord, hph, hblob, hjs,
      if_neg (blobToDataUrl_ne_empty b),
      dataUrl_roundTrip b hbytes htyb hcomma hsemi,
      jsOrNull_eq_self ph.width hw, jsOrNull_eq_self ph.height hh]
    cases p with
    | mk id createdAt updatedAt appVersion calcVersion styleName yarnDesc composition
        gauge weightGm currency photo inputs computed =>
      cases ph with
      | mk phblob phtype phwidth phheight =>
        simp only at hph hblob
        simp [hph, hblob]

/-- C9: a backup export followed by an import reproduces every record
exactly — style attributes, numeric inputs, computed snapshot, and the
photo, whose bytes survive the base64 decode unchanged — provided each
photo is well-formed (`GoodPhoto`). -/
theorem backup_roundTrip (ps : List Product) (now : String)
    (h : ∀ p ∈ ps, GoodPhoto p) :
    importBackup (exportBackup ps now) = ps := by
  simp only [importBackup, exportBackup, List.map_map]
  induction ps with
  | nil => rfl
  | cons p rest ih =>
    rw [List.map_cons, Function.comp_apply,
      importRecord_exportRecord p (h p (by simp)),
      ih (fun q hq => h q (by simp [hq]))]

/-- A concrete record with a three-byte photo used as the C9 witness. -/
def samplePhotoBlob : JSBlob := { bytes := [5, 200, 61], type := "image/jpeg" }

/-- A concrete committed record used as the C9 witness. -/
def sampleProduct : Product where
  id := "id-1"
  createdAt := "t0"
  updatedAt := "t0"
  appVersion := APP_VERSION
  calcVersion := CALC_VERSION
  styleName := "Pullover"
  yarnDesc := "Cotton"
  composition := ""
  gauge := 12
  weightGm := 378
  currency := "$"
  photo := some
    { blob := some samplePhotoBlob, type := "image/jpeg",
      width := some 100, height := some 100 }
  inputs :=
    { yarnPricePerLb := 2, wastagePct := 5, accessoriesCostDoz := 3, fabricDoz := 0,
      fabricCostDoz := 0, fabricAttachCostDoz := 0, timingMin := 0, cmDoz := 6, rocPct := 2 }
  computed :=
    { lbsPerDoz := some 10, lbsWithWastage := some 11, yarnCostDoz := some 21,
      totalDoz := 30, fobPerPc := 3, finalPerPc := 3 }

/-- Witness for C9 on a concrete one-record list. -/
theorem backup_roundTrip_witness :
    importBackup (exportBackup [sampleProduct] "t1") = [sampleProduct] :=
  backup_roundTrip [sampleProduct] "t1" (by
    intro p hp
    rw [List.mem_singleton] at hp
    subst hp
    exact ⟨⟨samplePhotoBlob, rfl, by decide, by decide, by decide, by decide⟩,
      by decide, by decide, by decide⟩)
